import Mathlib

/-!
Shallow embedding of the Go load balancer (src/lb/main.go) and proofs about
its dispatch engine: the backend registry, the least-load selector, the
connection-accounting handler, the health-check status update, and the
startup/configuration path.

Modelling conventions:
* Go `int`/`int64` values are embedded as `Int` (the program never comes near
  64-bit overflow for these counters, and no claim concerns wrap-around).
* The `float64` normalized-load values computed by `selectServer` are embedded
  as exact quotients together with the IEEE-754 special cases produced by
  division of integer-valued operands: `0/0` is NaN, `c/0` for `c ≠ 0` is a
  signed infinity, and every comparison involving NaN is false.  Rounding of
  `float64` at magnitudes beyond 2^53 is not modelled; the comparisons proved
  about are exact at all magnitudes the counters reach.
* The `*Server` pointer returned by `selectServer` (a pointer into the
  `lb.Servers` slice) is embedded as the slice index it points at, paired with
  the `Server` value found there.
* Go `defer` semantics: a deferred call runs both on normal return and while a
  panic unwinds the function.  The handler is therefore modelled as a function
  of the forwarding outcome (success, proxy error, panic) in which the
  deferred decrements apply in every case, exactly as `defer` guarantees.
-/

/-- `type Server struct` (main.go:22-29).  `Status atomic.Bool` is a plain
`Bool` here (atomicity is invisible in a sequential snapshot); `ReverseProxy`
holds the parsed target URL the proxy was built from (`none` before
`setupReversProxies` runs, or when `url.Parse` failed and the proxy was built
from a nil URL). -/
structure Server where
  Id : Int
  MaximumActiveConnections : Int
  CurrentActiveConnections : Int
  Status : Bool
  URL : String
  ReverseProxy : Option String
deriving Repr, DecidableEq

/-- `type LoadBalancer struct` (main.go:31-35). -/
structure LoadBalancer where
  Servers : List Server
  TotalActiveConnections : Int
  TotalRequests : Int
deriving Repr, DecidableEq

/-- Value of a Go `float64` division of two integer-valued operands, as
observed by the comparisons in `selectServer`: NaN (from `0/0`), a signed
infinity (from `c/0`, `c ≠ 0`), or an ordinary value.  `val c m` (with
`m ≠ 0`, as produced by `fdiv`) represents the exact quotient `c / m`; the
pair is kept unreduced so that the comparisons below are computable by
integer arithmetic. -/
inductive FVal where
  | nan
  | negInf
  | val (num den : Int)
  | posInf
deriving Repr, DecidableEq

/-- IEEE-754 `float64(c) / float64(m)` for `int64` operands `c`, `m`. -/
def fdiv (c m : Int) : FVal :=
  if m = 0 then
    if c = 0 then FVal.nan
    else if 0 < c then FVal.posInf
    else FVal.negInf
  else FVal.val c m

/-- IEEE-754 comparison `x >= 1.0`: false whenever `x` is NaN.  For a finite
value, `c / m ≥ 1` is equivalent to `m * m ≤ c * m` (multiply both sides by
`m² > 0`), keeping the comparison in integer arithmetic. -/
def FVal.ge1 : FVal → Bool
  | FVal.nan => false
  | FVal.negInf => false
  | FVal.val c m => decide (m * m ≤ c * m)
  | FVal.posInf => true

/-- IEEE-754 comparison `x < y`: false whenever either side is NaN.  For two
finite values, `a / b < c / d` is equivalent to `a·b·d² < c·d·b²` (multiply
both sides by `b²·d² > 0`). -/
def FVal.lt : FVal → FVal → Bool
  | FVal.nan, _ => false
  | _, FVal.nan => false
  | FVal.negInf, FVal.negInf => false
  | FVal.negInf, _ => true
  | _, FVal.negInf => false
  | FVal.posInf, _ => false
  | FVal.val a b, FVal.val c d => decide (a * b * (d * d) < c * d * (b * b))
  | FVal.val _ _, FVal.posInf => true

/-- The selection guard of main.go:61 in positive form: an entry passes the
loop body iff `Status` is true and its float load is not `>= 1.0`. -/
def qualifiesB (s : Server) : Bool :=
  s.Status && !(fdiv s.CurrentActiveConnections s.MaximumActiveConnections).ge1

/-- Exact normalized load `activeConnections / capacity` as a rational;
meaningful for entries with positive capacity. -/
def loadQ (s : Server) : ℚ :=
  (s.CurrentActiveConnections : ℚ) / (s.MaximumActiveConnections : ℚ)

/-- Well-formedness of a registry entry per the spec data model: positive
capacity and a non-negative connection count. -/
def WF (s : Server) : Prop :=
  0 < s.MaximumActiveConnections ∧ 0 ≤ s.CurrentActiveConnections

instance (s : Server) : Decidable (WF s) := by unfold WF; infer_instance

/-- The loop of `selectServer` (main.go:57-74).  `i` is the index of the head
of `rest` inside the original slice; `optimal` carries the current
`optimalServer` pointer as an index/value pair.  Re-reading the optimal
entry's connection count through the pointer (main.go:68) yields the stored
value in a sequential snapshot. -/
def selectLoop : List Server → Nat → Option (Nat × Server) → Option (Nat × Server)
  | [], _, optimal => optimal
  | s :: rest, i, optimal =>
    -- currentLoad := fdiv s.CurrentActiveConnections s.MaximumActiveConnections
    if !s.Status || (fdiv s.CurrentActiveConnections s.MaximumActiveConnections).ge1 then
      selectLoop rest (i + 1) optimal
    else
      match optimal with
      | none => selectLoop rest (i + 1) (some (i, s))
      | some (j, op) =>
        -- optimalLoad := fdiv op.CurrentActiveConnections op.MaximumActiveConnections
        if (fdiv s.CurrentActiveConnections s.MaximumActiveConnections).lt
            (fdiv op.CurrentActiveConnections op.MaximumActiveConnections) then
          selectLoop rest (i + 1) (some (i, s))
        else
          selectLoop rest (i + 1) (some (j, op))

/-- `func (lb *LoadBalancer) selectServer() *Server` (main.go:57-74); the
returned pointer is rendered as the index into `lb.Servers` it points at,
together with the entry stored there. -/
def LoadBalancer.selectServer (lb : LoadBalancer) : Option (Nat × Server) :=
  selectLoop lb.Servers 0 none

/-- Outcome of `server.ReverseProxy.ServeHTTP(w, r)` (main.go:54), which the
dispatch engine treats as an external collaborator: it may return normally,
return after writing a proxy error response, or panic out of the handler.
It never touches the balancer's counters. -/
inductive ForwardOutcome where
  | ok
  | proxyError
  | panicked
deriving Repr, DecidableEq

/-- What the client observes from one call of `ServeHTTP`. -/
inductive Response where
  | serviceUnavailable
  | forwarded (o : ForwardOutcome)
deriving Repr, DecidableEq

/-- Ghost event trace of the atomic counter operations a handler run
performs, used to state "exactly one increment / decrement" claims. -/
inductive Ev where
  | incRequests
  | incServer (k : Nat)
  | incTotal
  | decServer (k : Nat)
  | decTotal
deriving Repr, DecidableEq

/-- Apply `f` to the element at index `k` (no-op when out of range); models a
write through a `*Server` pointer into the `Servers` slice. -/
def modifyIdx : List Server → Nat → (Server → Server) → List Server
  | [], _, _ => []
  | s :: rest, 0, f => f s :: rest
  | s :: rest, k + 1, f => s :: modifyIdx rest k f

/-- `atomic.AddInt64(&server.CurrentActiveConnections, 1)`. -/
def incConn (s : Server) : Server :=
  { s with CurrentActiveConnections := s.CurrentActiveConnections + 1 }

/-- `atomic.AddInt64(&server.CurrentActiveConnections, -1)`. -/
def decConn (s : Server) : Server :=
  { s with CurrentActiveConnections := s.CurrentActiveConnections - 1 }

/-- `func (lb *LoadBalancer) ServeHTTP` (main.go:37-55) for one request, as a
function of the forwarding outcome.  The deferred decrements (main.go:49-52)
run on every exit path — normal return, proxy error, and panic unwinding —
per Go `defer` semantics, so they are applied in every branch that passed the
increments.  Returns the new state, the client-visible response, and the
ghost trace of counter operations. -/
def LoadBalancer.serveHTTP (lb : LoadBalancer) (o : ForwardOutcome) :
    LoadBalancer × Response × List Ev :=
  let lb0 : LoadBalancer := { lb with TotalRequests := lb.TotalRequests + 1 }
  match lb0.selectServer with
  | none => (lb0, Response.serviceUnavailable, [Ev.incRequests])
  | some (k, _) =>
    let lb1 : LoadBalancer :=
      { lb0 with
        Servers := modifyIdx lb0.Servers k incConn
        TotalActiveConnections := lb0.TotalActiveConnections + 1 }
    let lb2 : LoadBalancer :=
      { lb1 with
        Servers := modifyIdx lb1.Servers k decConn
        TotalActiveConnections := lb1.TotalActiveConnections - 1 }
    (lb2, Response.forwarded o,
      [Ev.incRequests, Ev.incServer k, Ev.incTotal, Ev.decServer k, Ev.decTotal])

/-- The status computation of one health probe (main.go:96-99): the new flag
is true iff `client.Get` returned no error and the status code is 200.  A
probe result of `none` models a transport error or the 5-second client
timeout firing; `some code` models a completed response with that status. -/
def probeStatus (result : Option Nat) : Bool :=
  match result with
  | none => false
  | some code => code == 200

/-- The per-server goroutine body of `healthCheck` (main.go:92-105):
store the probe's outcome into the entry's status flag. -/
def healthCheckServer (s : Server) (result : Option Nat) : Server :=
  { s with Status := probeStatus result }

/-- One cycle of the `healthCheck` loop (main.go:88-109): every entry is
probed at `URL + "/health"` and its flag rewritten from that probe alone.
`probe` gives each request URL's outcome for this cycle. -/
def healthCheckCycle (probe : String → Option Nat) (lb : LoadBalancer) : LoadBalancer :=
  { lb with Servers := lb.Servers.map (fun s => healthCheckServer s (probe (s.URL ++ "/health"))) }

/-- JSON documents, as far as the configuration files of this program need
them: only integer numerals are modelled (the config's numeric fields are
`int`/`int64`). -/
inductive Json where
  | null
  | bool (b : Bool)
  | num (n : Int)
  | str (s : String)
  | arr (elems : List Json)
  | obj (fields : List (String × Json))

/-- `encoding/json` decoding of a JSON value into an `int64` field holding
`cur`: a numeral overwrites it, `null` is a no-op, and any other kind of
value is an unmarshal type error. -/
def decodeInt64 (cur : Int) : Json → Except String Int
  | Json.num n => Except.ok n
  | Json.null => Except.ok cur
  | _ => Except.error "json: cannot unmarshal value into Go value of type int64"

/-- `encoding/json` decoding of a JSON value into a `string` field. -/
def decodeString (cur : String) : Json → Except String String
  | Json.str s => Except.ok s
  | Json.null => Except.ok cur
  | _ => Except.error "json: cannot unmarshal value into Go value of type string"

/-- `encoding/json` decoding of a JSON value into the `Status atomic.Bool`
field.  `sync/atomic.Bool` is a struct type that implements neither
`json.Unmarshaler` nor `encoding.TextUnmarshaler` and has no exported
fields, so: a JSON object decodes into it as a no-op (all keys unknown),
`null` is a no-op, and every other kind of value — in particular the JSON
booleans the README's `servers.json` uses — is an unmarshal type error. -/
def decodeAtomicBool (cur : Bool) : Json → Except String Bool
  | Json.obj _ => Except.ok cur
  | Json.null => Except.ok cur
  | _ => Except.error "json: cannot unmarshal bool into Go struct field Server.Status of type atomic.Bool"

/-- The `Server` struct's zero value, the starting point of decoding. -/
def zeroServer : Server :=
  { Id := 0, MaximumActiveConnections := 0, CurrentActiveConnections := 0,
    Status := false, URL := "", ReverseProxy := none }

/-- Dispatch of one JSON object key into the matching exported field of
`Server`; keys matching no modelled field are ignored, as `encoding/json`
ignores unknown keys.  (The `ReverseProxy` pointer field never appears in a
configuration file and is not modelled as decodable.) -/
def decodeServerField (s : Server) (key : String) (v : Json) : Except String Server :=
  if key = "Id" then (decodeInt64 s.Id v).map (fun n => { s with Id := n })
  else if key = "MaximumActiveConnections" then
    (decodeInt64 s.MaximumActiveConnections v).map
      (fun n => { s with MaximumActiveConnections := n })
  else if key = "CurrentActiveConnections" then
    (decodeInt64 s.CurrentActiveConnections v).map
      (fun n => { s with CurrentActiveConnections := n })
  else if key = "Status" then (decodeAtomicBool s.Status v).map (fun b => { s with Status := b })
  else if key = "URL" then (decodeString s.URL v).map (fun u => { s with URL := u })
  else Except.ok s

/-- `encoding/json` decoding of one element of the `Servers` array into a
`Server` struct: object keys are folded into the zero value (later duplicate
keys win, as in Go), `null` is a no-op, anything else is a type error.
Go's `Unmarshal` records a type error and keeps decoding, but returns a
non-nil error at the end; since `main` discards the value whenever the error
is non-nil, the first-error short-circuit used here is observationally the
same. -/
def Server.decode : Json → Except String Server
  | Json.obj fields => fields.foldlM (fun s kv => decodeServerField s kv.1 kv.2) zeroServer
  | Json.null => Except.ok zeroServer
  | _ => Except.error "json: cannot unmarshal value into Go value of type Server"

/-- The `LoadBalancer` struct's zero value. -/
def zeroLB : LoadBalancer :=
  { Servers := [], TotalActiveConnections := 0, TotalRequests := 0 }

/-- `encoding/json` decoding of a JSON value into the `Servers []Server`
field: an array replaces the slice element-wise, `null` is a no-op. -/
def decodeServers (cur : List Server) : Json → Except String (List Server)
  | Json.arr elems => elems.mapM Server.decode
  | Json.null => Except.ok cur
  | _ => Except.error "json: cannot unmarshal value into Go value of type []Server"

/-- Dispatch of one JSON object key into the matching field of
`LoadBalancer`; unknown keys are ignored. -/
def decodeLBField (lb : LoadBalancer) (key : String) (v : Json) : Except String LoadBalancer :=
  if key = "Servers" then (decodeServers lb.Servers v).map (fun ss => { lb with Servers := ss })
  else if key = "TotalActiveConnections" then
    (decodeInt64 lb.TotalActiveConnections v).map
      (fun n => { lb with TotalActiveConnections := n })
  else if key = "TotalRequests" then
    (decodeInt64 lb.TotalRequests v).map (fun n => { lb with TotalRequests := n })
  else Except.ok lb

/-- `json.Unmarshal(serversInfoFile, &lb)` (main.go:243) on an
already-syntactically-parsed document. -/
def LoadBalancer.decode : Json → Except String LoadBalancer
  | Json.obj fields => fields.foldlM (fun lb kv => decodeLBField lb kv.1 kv.2) zeroLB
  | Json.null => Except.ok zeroLB
  | _ => Except.error "json: cannot unmarshal value into Go value of type LoadBalancer"

/-- `func setupReversProxies` (main.go:76-81): builds each entry's proxy from
`url.Parse(URL)`, discarding the parse error (`serverURL, _ := ...`).
`parseURL` stands for `url.Parse`; a `none` result (parse failure) still
yields a proxy — `NewSingleHostReverseProxy` does not inspect its target at
construction time — so setup never fails. -/
def setupReversProxies (parseURL : String → Option String) (lb : LoadBalancer) : LoadBalancer :=
  { lb with Servers := lb.Servers.map (fun s => { s with ReverseProxy := parseURL s.URL }) }

/-- `func main` (main.go:228-259) up to the point the process begins
serving.  `file = none` models `os.ReadFile` failing, `file = some none` a
JSON syntax error in the file, and `file = some (some doc)` a well-formed
document; in the two error cases and on an unmarshal error, `main` prints
the error and returns without serving (`none`).  A `some lb` result means
the process goes on to start the health checker and serve requests with
exactly this balancer state. -/
def runMain (file : Option (Option Json)) (parseURL : String → Option String) :
    Option LoadBalancer :=
  match file with
  | none => none
  | some none => none
  | some (some doc) =>
    match LoadBalancer.decode doc with
    | Except.error _ => none
    | Except.ok lb => some (setupReversProxies parseURL lb)

/-- An `url.Parse` stand-in that fails on every address. -/
def noParse : String → Option String := fun _ => none

/-- Spec §8, concrete scenario A: capacities 5 and 3, both healthy, zero
load each. -/
def serverA1 : Server :=
  { Id := 1, MaximumActiveConnections := 5, CurrentActiveConnections := 0,
    Status := true, URL := "http://localhost:9001", ReverseProxy := none }

def serverA2 : Server :=
  { Id := 2, MaximumActiveConnections := 3, CurrentActiveConnections := 0,
    Status := true, URL := "http://localhost:9002", ReverseProxy := none }

def lbA : LoadBalancer :=
  { Servers := [serverA1, serverA2], TotalActiveConnections := 0, TotalRequests := 0 }

/-- Spec §8, concrete scenario B: entry A at 5/5 (full), entry B at 2/3. -/
def serverB1 : Server :=
  { Id := 1, MaximumActiveConnections := 5, CurrentActiveConnections := 5,
    Status := true, URL := "http://localhost:9001", ReverseProxy := none }

def serverB2 : Server :=
  { Id := 2, MaximumActiveConnections := 3, CurrentActiveConnections := 2,
    Status := true, URL := "http://localhost:9002", ReverseProxy := none }

def lbB : LoadBalancer :=
  { Servers := [serverB1, serverB2], TotalActiveConnections := 7, TotalRequests := 0 }

/-- Spec §8, concrete scenario C: both entries unhealthy. -/
def serverC1 : Server :=
  { Id := 1, MaximumActiveConnections := 5, CurrentActiveConnections := 0,
    Status := false, URL := "http://localhost:9001", ReverseProxy := none }

def serverC2 : Server :=
  { Id := 2, MaximumActiveConnections := 3, CurrentActiveConnections := 0,
    Status := false, URL := "http://localhost:9002", ReverseProxy := none }

def lbC : LoadBalancer :=
  { Servers := [serverC1, serverC2], TotalActiveConnections := 0, TotalRequests := 0 }

/-- A healthy entry with capacity 0 and no active connections. -/
def zeroCapServer : Server :=
  { Id := 1, MaximumActiveConnections := 0, CurrentActiveConnections := 0,
    Status := true, URL := "http://localhost:9001", ReverseProxy := none }

def zeroCapLB : LoadBalancer :=
  { Servers := [zeroCapServer], TotalActiveConnections := 0, TotalRequests := 0 }

/-- The `servers.json` documented in the repository README: two entries,
each declaring `"Status": true`. -/
def readmeServersJson : Json :=
  Json.obj [("Servers", Json.arr [
    Json.obj [("Id", Json.num 1), ("MaximumActiveConnections", Json.num 5),
      ("Status", Json.bool true), ("URL", Json.str "http://localhost:9001")],
    Json.obj [("Id", Json.num 2), ("MaximumActiveConnections", Json.num 3),
      ("Status", Json.bool true), ("URL", Json.str "http://localhost:9002")]])]


/-! ### Bridge lemmas between the float model and exact arithmetic -/

lemma fdiv_of_ne (c m : Int) (hm : m ≠ 0) : fdiv c m = FVal.val c m := by
  simp [fdiv, hm]

lemma ge1_iff_le (c m : Int) (hm : 0 < m) : (fdiv c m).ge1 = true ↔ m ≤ c := by
  rw [fdiv_of_ne c m (by omega)]
  simp only [FVal.ge1, decide_eq_true_eq]
  exact mul_le_mul_right hm

lemma flt_iff (a b c d : Int) (hb : 0 < b) (hd : 0 < d) :
    FVal.lt (fdiv a b) (fdiv c d) = true ↔ (a : ℚ) / (b : ℚ) < (c : ℚ) / (d : ℚ) := by
  rw [fdiv_of_ne a b (by omega), fdiv_of_ne c d (by omega)]
  simp only [FVal.lt, decide_eq_true_eq]
  rw [div_lt_div_iff₀ (by positivity) (by positivity)]
  have hbd : (0 : Int) < b * d := mul_pos hb hd
  have key : a * b * (d * d) < c * d * (b * b) ↔ a * d * (b * d) < c * b * (b * d) := by
    constructor <;> intro h <;> nlinarith [h]
  rw [key, mul_lt_mul_right hbd]
  exact ⟨fun h => by exact_mod_cast h, fun h => by exact_mod_cast h⟩

lemma loadQ_lt_iff (s t : Server) (hs : 0 < s.MaximumActiveConnections)
    (ht : 0 < t.MaximumActiveConnections) :
    FVal.lt (fdiv s.CurrentActiveConnections s.MaximumActiveConnections)
        (fdiv t.CurrentActiveConnections t.MaximumActiveConnections) = true ↔
      loadQ s < loadQ t :=
  flt_iff _ _ _ _ hs ht

lemma guard_eq_not_qual (s : Server) :
    (!s.Status || (fdiv s.CurrentActiveConnections s.MaximumActiveConnections).ge1) =
      !(qualifiesB s) := by
  simp [qualifiesB, Bool.not_and]

lemma qual_iff (s : Server) (h : WF s) :
    qualifiesB s = true ↔
      (s.Status = true ∧ s.CurrentActiveConnections < s.MaximumActiveConnections) := by
  have hg := ge1_iff_le s.CurrentActiveConnections s.MaximumActiveConnections h.1
  unfold qualifiesB
  cases hst : s.Status <;>
    cases hge : (fdiv s.CurrentActiveConnections s.MaximumActiveConnections).ge1 <;>
      rw [hge] at hg <;> simp at hg ⊢ <;> omega

/-- Under well-formedness, the exact load is below 1 exactly when the
connection count is strictly below capacity. -/
lemma loadQ_lt_one (s : Server) (h : 0 < s.MaximumActiveConnections) :
    loadQ s < 1 ↔ s.CurrentActiveConnections < s.MaximumActiveConnections := by
  unfold loadQ
  rw [div_lt_one (by positivity)]
  exact ⟨fun h' => by exact_mod_cast h', fun h' => by exact_mod_cast h'⟩

/-! ### Structure of the selection loop -/

/-- Soundness of the loop: a returned pair is a qualifying entry, and it is
either the accumulator or sits in the remaining list at the index claimed
(offset by `i`, the index of the head of `l`). -/
lemma selectLoop_qual :
    ∀ (l : List Server) (i : Nat) (acc : Option (Nat × Server)) (k : Nat) (s : Server),
      (∀ j op, acc = some (j, op) → qualifiesB op = true) →
      selectLoop l i acc = some (k, s) →
      qualifiesB s = true ∧ (acc = some (k, s) ∨ (i ≤ k ∧ l[k - i]? = some s)) := by
  intro l
  induction l with
  | nil =>
    intro i acc k s hacc h
    simp only [selectLoop] at h
    exact ⟨hacc k s h, Or.inl h⟩
  | cons s₀ rest ih =>
    intro i acc k s hacc h
    cases acc with
    | none =>
      simp only [selectLoop] at h
      by_cases hg :
          (!s₀.Status ||
            (fdiv s₀.CurrentActiveConnections s₀.MaximumActiveConnections).ge1) = true
      · rw [if_pos hg] at h
        obtain ⟨hq, hrest⟩ := ih (i + 1) none k s (by intro j op h'; cases h') h
        rcases hrest with h' | ⟨hik, hget⟩
        · cases h'
        · refine ⟨hq, Or.inr ⟨by omega, ?_⟩⟩
          rw [show k - i = (k - (i + 1)) + 1 from by omega, List.getElem?_cons_succ]
          exact hget
      · rw [if_neg hg] at h
        have hq₀ : qualifiesB s₀ = true := by
          rw [guard_eq_not_qual] at hg
          simpa using hg
        obtain ⟨hq, hrest⟩ :=
          ih (i + 1) (some (i, s₀)) k s (by rintro j op h'; cases h'; exact hq₀) h
        refine ⟨hq, Or.inr ?_⟩
        rcases hrest with h' | ⟨hik, hget⟩
        · cases h'
          exact ⟨le_refl i, by simp⟩
        · refine ⟨by omega, ?_⟩
          rw [show k - i = (k - (i + 1)) + 1 from by omega, List.getElem?_cons_succ]
          exact hget
    | some jop =>
      obtain ⟨j, op⟩ := jop
      have hqop : qualifiesB op = true := hacc j op rfl
      simp only [selectLoop] at h
      by_cases hg :
          (!s₀.Status ||
            (fdiv s₀.CurrentActiveConnections s₀.MaximumActiveConnections).ge1) = true
      · rw [if_pos hg] at h
        obtain ⟨hq, hrest⟩ :=
          ih (i + 1) (some (j, op)) k s (by rintro j' op' h'; cases h'; exact hqop) h
        rcases hrest with h' | ⟨hik, hget⟩
        · exact ⟨hq, Or.inl h'⟩
        · refine ⟨hq, Or.inr ⟨by omega, ?_⟩⟩
          rw [show k - i = (k - (i + 1)) + 1 from by omega, List.getElem?_cons_succ]
          exact hget
      · rw [if_neg hg] at h
        have hq₀ : qualifiesB s₀ = true := by
          rw [guard_eq_not_qual] at hg
          simpa using hg
        by_cases hc :
            ((fdiv s₀.CurrentActiveConnections s₀.MaximumActiveConnections).lt
              (fdiv op.CurrentActiveConnections op.MaximumActiveConnections)) = true
        · rw [if_pos hc] at h
          obtain ⟨hq, hrest⟩ :=
            ih (i + 1) (some (i, s₀)) k s (by rintro j' op' h'; cases h'; exact hq₀) h
          refine ⟨hq, Or.inr ?_⟩
          rcases hrest with h' | ⟨hik, hget⟩
          · cases h'
            exact ⟨le_refl i, by simp⟩
          · refine ⟨by omega, ?_⟩
            rw [show k - i = (k - (i + 1)) + 1 from by omega, List.getElem?_cons_succ]
            exact hget
        · rw [if_neg hc] at h
          obtain ⟨hq, hrest⟩ :=
            ih (i + 1) (some (j, op)) k s (by rintro j' op' h'; cases h'; exact hqop) h
          rcases hrest with h' | ⟨hik, hget⟩
          · exact ⟨hq, Or.inl h'⟩
          · refine ⟨hq, Or.inr ⟨by omega, ?_⟩⟩
            rw [show k - i = (k - (i + 1)) + 1 from by omega, List.getElem?_cons_succ]
            exact hget

/-- Minimality of the loop when an optimal entry is already held: either the
held entry survives (and is a lower bound on every qualifying load of the
remaining list), or the result is a strictly better entry of the remaining
list that is minimal over it, with every entry strictly before it strictly
worse. -/
lemma selectLoop_min_acc :
    ∀ (l : List Server) (i j₀ : Nat) (op : Server),
      (∀ s ∈ l, WF s) → WF op → qualifiesB op = true →
      (selectLoop l i (some (j₀, op)) = some (j₀, op) ∧
          ∀ t ∈ l, qualifiesB t = true → loadQ op ≤ loadQ t) ∨
        (∃ k s, selectLoop l i (some (j₀, op)) = some (k, s) ∧ i ≤ k ∧
          l[k - i]? = some s ∧ qualifiesB s = true ∧ loadQ s < loadQ op ∧
          (∀ (j : Nat) (t : Server), l[j]? = some t → qualifiesB t = true → loadQ s ≤ loadQ t) ∧
          (∀ (j : Nat) (t : Server), l[j]? = some t → j < k - i → qualifiesB t = true → loadQ s < loadQ t)) := by
  intro l
  induction l with
  | nil =>
    intro i j₀ op _ _ _
    exact Or.inl ⟨rfl, by simp⟩
  | cons s₀ rest ih =>
    intro i j₀ op hwf hop hqop
    have hwf₀ : WF s₀ := hwf s₀ (List.mem_cons_self _ _)
    have hwfr : ∀ s ∈ rest, WF s := fun s hs => hwf s (List.mem_cons_of_mem _ hs)
    by_cases hg :
        (!s₀.Status ||
          (fdiv s₀.CurrentActiveConnections s₀.MaximumActiveConnections).ge1) = true
    · -- the head is skipped by the guard
      have hq₀ : qualifiesB s₀ = false := by
        rw [guard_eq_not_qual] at hg; simpa using hg
      have hsel : selectLoop (s₀ :: rest) i (some (j₀, op)) =
          selectLoop rest (i + 1) (some (j₀, op)) := by
        simp only [selectLoop]; rw [if_pos hg]
      rcases ih (i + 1) j₀ op hwfr hop hqop with
        ⟨heq, hall⟩ | ⟨k, s, heq, hik, hget, hq, hlt, hle, hstrict⟩
      · refine Or.inl ⟨by rw [hsel]; exact heq, ?_⟩
        intro t ht hqt
        rcases List.mem_cons.mp ht with rfl | ht'
        · rw [hq₀] at hqt; cases hqt
        · exact hall t ht' hqt
      · refine Or.inr ⟨k, s, by rw [hsel]; exact heq, by omega, ?_, hq, hlt, ?_, ?_⟩
        · rw [show k - i = (k - (i + 1)) + 1 from by omega, List.getElem?_cons_succ]
          exact hget
        · intro j t hjt hqt
          cases j with
          | zero =>
            rw [List.getElem?_cons_zero] at hjt; cases hjt
            rw [hq₀] at hqt; cases hqt
          | succ j' =>
            rw [List.getElem?_cons_succ] at hjt
            exact hle j' t hjt hqt
        · intro j t hjt hjlt hqt
          cases j with
          | zero =>
            rw [List.getElem?_cons_zero] at hjt; cases hjt
            rw [hq₀] at hqt; cases hqt
          | succ j' =>
            rw [List.getElem?_cons_succ] at hjt
            exact hstrict j' t hjt (by omega) hqt
    · -- the head qualifies
      have hq₀ : qualifiesB s₀ = true := by
        rw [guard_eq_not_qual] at hg; simpa using hg
      by_cases hc :
          ((fdiv s₀.CurrentActiveConnections s₀.MaximumActiveConnections).lt
            (fdiv op.CurrentActiveConnections op.MaximumActiveConnections)) = true
      · -- strictly smaller load: the head replaces the held entry
        have hlt₀ : loadQ s₀ < loadQ op := (loadQ_lt_iff s₀ op hwf₀.1 hop.1).mp hc
        have hsel : selectLoop (s₀ :: rest) i (some (j₀, op)) =
            selectLoop rest (i + 1) (some (i, s₀)) := by
          simp only [selectLoop]; rw [if_neg hg, if_pos hc]
        rcases ih (i + 1) i s₀ hwfr hwf₀ hq₀ with
          ⟨heq, hall⟩ | ⟨k, s, heq, hik, hget, hq, hlt₂, hle, hstrict⟩
        · refine Or.inr ⟨i, s₀, by rw [hsel]; exact heq, le_refl i, by simp, hq₀, hlt₀, ?_, ?_⟩
          · intro j t hjt hqt
            cases j with
            | zero =>
              rw [List.getElem?_cons_zero] at hjt; cases hjt
              exact le_refl _
            | succ j' =>
              rw [List.getElem?_cons_succ] at hjt
              exact hall t (List.getElem?_mem hjt) hqt
          · intro j t hjt hjlt hqt
            omega
        · refine Or.inr ⟨k, s, by rw [hsel]; exact heq, by omega, ?_, hq,
            lt_trans hlt₂ hlt₀, ?_, ?_⟩
          · rw [show k - i = (k - (i + 1)) + 1 from by omega, List.getElem?_cons_succ]
            exact hget
          · intro j t hjt hqt
            cases j with
            | zero =>
              rw [List.getElem?_cons_zero] at hjt; cases hjt
              exact le_of_lt hlt₂
            | succ j' =>
              rw [List.getElem?_cons_succ] at hjt
              exact hle j' t hjt hqt
          · intro j t hjt hjlt hqt
            cases j with
            | zero =>
              rw [List.getElem?_cons_zero] at hjt; cases hjt
              exact hlt₂
            | succ j' =>
              rw [List.getElem?_cons_succ] at hjt
              exact hstrict j' t hjt (by omega) hqt
      · -- not strictly smaller: the held entry is kept
        have hle₀ : loadQ op ≤ loadQ s₀ :=
          le_of_not_lt (fun h' => hc ((loadQ_lt_iff s₀ op hwf₀.1 hop.1).mpr h'))
        have hsel : selectLoop (s₀ :: rest) i (some (j₀, op)) =
            selectLoop rest (i + 1) (some (j₀, op)) := by
          simp only [selectLoop]; rw [if_neg hg, if_neg hc]
        rcases ih (i + 1) j₀ op hwfr hop hqop with
          ⟨heq, hall⟩ | ⟨k, s, heq, hik, hget, hq, hlt₂, hle, hstrict⟩
        · refine Or.inl ⟨by rw [hsel]; exact heq, ?_⟩
          intro t ht hqt
          rcases List.mem_cons.mp ht with rfl | ht'
          · exact hle₀
          · exact hall t ht' hqt
        · refine Or.inr ⟨k, s, by rw [hsel]; exact heq, by omega, ?_, hq, hlt₂, ?_, ?_⟩
          · rw [show k - i = (k - (i + 1)) + 1 from by omega, List.getElem?_cons_succ]
            exact hget
          · intro j t hjt hqt
            cases j with
            | zero =>
              rw [List.getElem?_cons_zero] at hjt; cases hjt
              exact le_trans (le_of_lt hlt₂) hle₀
            | succ j' =>
              rw [List.getElem?_cons_succ] at hjt
              exact hle j' t hjt hqt
          · intro j t hjt hjlt hqt
            cases j with
            | zero =>
              rw [List.getElem?_cons_zero] at hjt; cases hjt
              exact lt_of_lt_of_le hlt₂ hle₀
            | succ j' =>
              rw [List.getElem?_cons_succ] at hjt
              exact hstrict j' t hjt (by omega) hqt

/-- Full characterisation of the loop started with no optimal entry: either
nothing qualifies and the result is `none`, or the result is the first
qualifying entry of minimal load — every qualifying entry before it is
strictly worse, every qualifying entry anywhere is no better. -/
lemma selectLoop_min_none :
    ∀ (l : List Server) (i : Nat), (∀ s ∈ l, WF s) →
      (selectLoop l i none = none ∧ ∀ s ∈ l, qualifiesB s = false) ∨
        (∃ k s, selectLoop l i none = some (k, s) ∧ i ≤ k ∧
          l[k - i]? = some s ∧ qualifiesB s = true ∧
          (∀ (j : Nat) (t : Server), l[j]? = some t → qualifiesB t = true → loadQ s ≤ loadQ t) ∧
          (∀ (j : Nat) (t : Server), l[j]? = some t → j < k - i → qualifiesB t = true → loadQ s < loadQ t)) := by
  intro l
  induction l with
  | nil =>
    intro i _
    exact Or.inl ⟨rfl, by simp⟩
  | cons s₀ rest ih =>
    intro i hwf
    have hwf₀ : WF s₀ := hwf s₀ (List.mem_cons_self _ _)
    have hwfr : ∀ s ∈ rest, WF s := fun s hs => hwf s (List.mem_cons_of_mem _ hs)
    by_cases hg :
        (!s₀.Status ||
          (fdiv s₀.CurrentActiveConnections s₀.MaximumActiveConnections).ge1) = true
    · have hq₀ : qualifiesB s₀ = false := by
        rw [guard_eq_not_qual] at hg; simpa using hg
      have hsel : selectLoop (s₀ :: rest) i none = selectLoop rest (i + 1) none := by
        simp only [selectLoop]; rw [if_pos hg]
      rcases ih (i + 1) hwfr with
        ⟨heq, hall⟩ | ⟨k, s, heq, hik, hget, hq, hle, hstrict⟩
      · refine Or.inl ⟨by rw [hsel]; exact heq, ?_⟩
        intro t ht
        rcases List.mem_cons.mp ht with rfl | ht'
        · exact hq₀
        · exact hall t ht'
      · refine Or.inr ⟨k, s, by rw [hsel]; exact heq, by omega, ?_, hq, ?_, ?_⟩
        · rw [show k - i = (k - (i + 1)) + 1 from by omega, List.getElem?_cons_succ]
          exact hget
        · intro j t hjt hqt
          cases j with
          | zero =>
            rw [List.getElem?_cons_zero] at hjt; cases hjt
            rw [hq₀] at hqt; cases hqt
          | succ j' =>
            rw [List.getElem?_cons_succ] at hjt
            exact hle j' t hjt hqt
        · intro j t hjt hjlt hqt
          cases j with
          | zero =>
            rw [List.getElem?_cons_zero] at hjt; cases hjt
            rw [hq₀] at hqt; cases hqt
          | succ j' =>
            rw [List.getElem?_cons_succ] at hjt
            exact hstrict j' t hjt (by omega) hqt
    · have hq₀ : qualifiesB s₀ = true := by
        rw [guard_eq_not_qual] at hg; simpa using hg
      have hsel : selectLoop (s₀ :: rest) i none = selectLoop rest (i + 1) (some (i, s₀)) := by
        simp only [selectLoop]; rw [if_neg hg]
      rcases selectLoop_min_acc rest (i + 1) i s₀ hwfr hwf₀ hq₀ with
        ⟨heq, hall⟩ | ⟨k, s, heq, hik, hget, hq, hlt₂, hle, hstrict⟩
      · refine Or.inr ⟨i, s₀, by rw [hsel]; exact heq, le_refl i, by simp, hq₀, ?_, ?_⟩
        · intro j t hjt hqt
          cases j with
          | zero =>
            rw [List.getElem?_cons_zero] at hjt; cases hjt
            exact le_refl _
          | succ j' =>
            rw [List.getElem?_cons_succ] at hjt
            exact hall t (List.getElem?_mem hjt) hqt
        · intro j t hjt hjlt hqt
          omega
      · refine Or.inr ⟨k, s, by rw [hsel]; exact heq, by omega, ?_, hq, ?_, ?_⟩
        · rw [show k - i = (k - (i + 1)) + 1 from by omega, List.getElem?_cons_succ]
          exact hget
        · intro j t hjt hqt
          cases j with
          | zero =>
            rw [List.getElem?_cons_zero] at hjt; cases hjt
            exact le_of_lt hlt₂
          | succ j' =>
            rw [List.getElem?_cons_succ] at hjt
            exact hle j' t hjt hqt
        · intro j t hjt hjlt hqt
          cases j with
          | zero =>
            rw [List.getElem?_cons_zero] at hjt; cases hjt
            exact hlt₂
          | succ j' =>
            rw [List.getElem?_cons_succ] at hjt
            exact hstrict j' t hjt (by omega) hqt

/-! ### Claim theorems: the selector -/

/-- C1.  Selection safety: for every well-formed registry snapshot (positive
capacities, non-negative connection counts, the spec's data-model
invariants), an entry returned by `selectServer` was observed healthy
(`Status` true), strictly below capacity, and its float load comparison
`load >= 1.0` is false; moreover it really is the registry entry at the
returned index. -/
theorem selectServer_never_unhealthy_or_full (lb : LoadBalancer)
    (hwf : ∀ s ∈ lb.Servers, WF s) (k : Nat) (s : Server)
    (h : lb.selectServer = some (k, s)) :
    s.Status = true ∧ s.CurrentActiveConnections < s.MaximumActiveConnections ∧
      (fdiv s.CurrentActiveConnections s.MaximumActiveConnections).ge1 = false ∧
      lb.Servers[k]? = some s := by
  obtain ⟨hq, hrest⟩ := selectLoop_qual lb.Servers 0 none k s (by intro j op h'; cases h') h
  rcases hrest with h' | ⟨-, hget⟩
  · cases h'
  · rw [Nat.sub_zero] at hget
    have hs : s ∈ lb.Servers := List.getElem?_mem hget
    obtain ⟨hst, hlt⟩ := (qual_iff s (hwf s hs)).mp hq
    refine ⟨hst, hlt, ?_, hget⟩
    unfold qualifiesB at hq
    rcases (Bool.and_eq_true _ _).mp hq with ⟨-, hng⟩
    simpa using hng

/-- Witness for C1 at spec scenario A: both entries healthy at zero load,
`selectServer` returns the first entry, which is healthy and below
capacity. -/
theorem selectServer_never_unhealthy_or_full_witness :
    serverA1.Status = true ∧
      serverA1.CurrentActiveConnections < serverA1.MaximumActiveConnections ∧
      (fdiv serverA1.CurrentActiveConnections serverA1.MaximumActiveConnections).ge1 = false ∧
      lbA.Servers[0]? = some serverA1 :=
  selectServer_never_unhealthy_or_full lbA (by decide) 0 serverA1 (by decide)

/-- C2.  Least-load selection: on a well-formed snapshot with at least one
qualifying entry, `selectServer` returns a qualifying entry of minimal
normalized load, and every qualifying entry at a lower index has a strictly
larger load — ties are broken in favour of the lowest registry index. -/
theorem selectServer_least_load (lb : LoadBalancer)
    (hwf : ∀ s ∈ lb.Servers, WF s) (t₀ : Server) (ht : t₀ ∈ lb.Servers)
    (hq₀ : qualifiesB t₀ = true) :
    ∃ k s, lb.selectServer = some (k, s) ∧ lb.Servers[k]? = some s ∧
      qualifiesB s = true ∧
      (∀ (j : Nat) (t : Server), lb.Servers[j]? = some t → qualifiesB t = true →
        loadQ s ≤ loadQ t) ∧
      (∀ (j : Nat) (t : Server), j < k → lb.Servers[j]? = some t →
        qualifiesB t = true → loadQ s < loadQ t) := by
  rcases selectLoop_min_none lb.Servers 0 hwf with
    ⟨-, hall⟩ | ⟨k, s, heq, -, hget, hq, hle, hstrict⟩
  · rw [hall t₀ ht] at hq₀; cases hq₀
  · rw [Nat.sub_zero] at hget
    simp only [Nat.sub_zero] at hstrict
    exact ⟨k, s, heq, hget, hq, hle, fun j t hj hjt hqt => hstrict j t hjt hj hqt⟩

/-- Witness for C2 at spec scenario B: entry 1 full at 5/5, entry 2 at 2/3;
the selector returns a qualifying entry of minimal load (entry 2). -/
theorem selectServer_least_load_witness :
    ∃ k s, lbB.selectServer = some (k, s) ∧ lbB.Servers[k]? = some s ∧
      qualifiesB s = true ∧
      (∀ (j : Nat) (t : Server), lbB.Servers[j]? = some t → qualifiesB t = true →
        loadQ s ≤ loadQ t) ∧
      (∀ (j : Nat) (t : Server), j < k → lbB.Servers[j]? = some t →
        qualifiesB t = true → loadQ s < loadQ t) :=
  selectServer_least_load lbB (by decide) serverB2 (by decide) (by decide)

/-- C9.  The capacity guard does not exclude a zero-capacity entry: for a
single healthy entry with capacity 0 and 0 active connections the computed
load is the float division `0/0` (NaN), the comparison `load >= 1.0` is
false, and `selectServer` returns that entry instead of none. -/
theorem selectServer_zero_capacity_nan :
    fdiv zeroCapServer.CurrentActiveConnections zeroCapServer.MaximumActiveConnections =
        FVal.nan ∧
      (fdiv zeroCapServer.CurrentActiveConnections
          zeroCapServer.MaximumActiveConnections).ge1 = false ∧
      zeroCapLB.selectServer = some (0, zeroCapServer) := by
  decide

/-! ### Claim theorems: the dispatch handler -/

/-- The paired increment/decrement through the same pointer (index) cancels
exactly, restoring the slice. -/
lemma modifyIdx_inc_dec (l : List Server) (k : Nat) :
    modifyIdx (modifyIdx l k incConn) k decConn = l := by
  induction l generalizing k with
  | nil => rfl
  | cons s rest ih =>
    cases k with
    | zero =>
      simp only [modifyIdx, incConn, decConn]
      congr 1
      simp
    | succ k' => simp [modifyIdx, ih]

/-- C3.  Accounting symmetry: whenever the selector returned a backend, the
handler performs exactly one increment and one decrement of that backend's
`CurrentActiveConnections` and of the global active counter, on every
forwarding outcome (success, proxy error, panic), so the net change to the
registry and to the global active counter is zero. -/
theorem serveHTTP_counter_symmetry (lb : LoadBalancer) (o : ForwardOutcome)
    (k : Nat) (s : Server) (h : lb.selectServer = some (k, s)) :
    (lb.serveHTTP o).1.Servers = lb.Servers ∧
      (lb.serveHTTP o).1.TotalActiveConnections = lb.TotalActiveConnections ∧
      (lb.serveHTTP o).2.1 = Response.forwarded o ∧
      (lb.serveHTTP o).2.2.count (Ev.incServer k) = 1 ∧
      (lb.serveHTTP o).2.2.count (Ev.decServer k) = 1 ∧
      (lb.serveHTTP o).2.2.count Ev.incTotal = 1 ∧
      (lb.serveHTTP o).2.2.count Ev.decTotal = 1 := by
  have hsel : ({ lb with TotalRequests := lb.TotalRequests + 1 } : LoadBalancer).selectServer =
      some (k, s) := h
  simp [LoadBalancer.serveHTTP, hsel, modifyIdx_inc_dec, List.count_cons]

/-- Witness for C3 at scenario A with a panicking forward: the counters and
the registry return to their pre-request values and each event occurs
exactly once. -/
theorem serveHTTP_counter_symmetry_witness :
    (lbA.serveHTTP ForwardOutcome.panicked).1.Servers = lbA.Servers ∧
      (lbA.serveHTTP ForwardOutcome.panicked).1.TotalActiveConnections =
        lbA.TotalActiveConnections ∧
      (lbA.serveHTTP ForwardOutcome.panicked).2.1 =
        Response.forwarded ForwardOutcome.panicked ∧
      (lbA.serveHTTP ForwardOutcome.panicked).2.2.count (Ev.incServer 0) = 1 ∧
      (lbA.serveHTTP ForwardOutcome.panicked).2.2.count (Ev.decServer 0) = 1 ∧
      (lbA.serveHTTP ForwardOutcome.panicked).2.2.count Ev.incTotal = 1 ∧
      (lbA.serveHTTP ForwardOutcome.panicked).2.2.count Ev.decTotal = 1 :=
  serveHTTP_counter_symmetry lbA ForwardOutcome.panicked 0 serverA1 (by decide)

/-- C4.  Exhaustion: on a well-formed snapshot in which every entry is
unhealthy or at/over capacity, the selector returns none and the handler
responds service-unavailable, touching no per-entry or global
active-connection counter — the only state change is the total-request
increment, and the only counter event is that increment. -/
theorem serveHTTP_exhaustion (lb : LoadBalancer)
    (hwf : ∀ s ∈ lb.Servers, WF s)
    (hex : ∀ s ∈ lb.Servers,
      s.Status = false ∨ s.MaximumActiveConnections ≤ s.CurrentActiveConnections)
    (o : ForwardOutcome) :
    lb.selectServer = none ∧
      lb.serveHTTP o = ({ lb with TotalRequests := lb.TotalRequests + 1 },
        Response.serviceUnavailable, [Ev.incRequests]) := by
  have hnone : lb.selectServer = none := by
    cases hsel : lb.selectServer with
    | none => rfl
    | some ks =>
      obtain ⟨k, s⟩ := ks
      obtain ⟨hq, hrest⟩ :=
        selectLoop_qual lb.Servers 0 none k s (by intro j op h'; cases h') hsel
      rcases hrest with h' | ⟨-, hget⟩
      · cases h'
      · rw [Nat.sub_zero] at hget
        have hs := List.getElem?_mem hget
        obtain ⟨hst, hlt⟩ := (qual_iff s (hwf s hs)).mp hq
        rcases hex s hs with h₁ | h₂
        · rw [hst] at h₁; cases h₁
        · omega
  have hsel0 : ({ lb with TotalRequests := lb.TotalRequests + 1 } : LoadBalancer).selectServer =
      none := hnone
  exact ⟨hnone, by simp only [LoadBalancer.serveHTTP, hsel0]⟩

/-- Witness for C4 at spec scenario C: both entries unhealthy; the selector
returns none and the handler leaves every connection counter untouched. -/
theorem serveHTTP_exhaustion_witness :
    lbC.selectServer = none ∧
      lbC.serveHTTP ForwardOutcome.ok = ({ lbC with TotalRequests := lbC.TotalRequests + 1 },
        Response.serviceUnavailable, [Ev.incRequests]) :=
  serveHTTP_exhaustion lbC (by decide) (by decide) ForwardOutcome.ok

/-- C8.  The total-request counter rises by exactly one on every inbound
request — including those that end service-unavailable — is never
decremented (it strictly increases across a request), and no other dispatch
operation (a health-check cycle) touches it. -/
theorem totalRequests_monotone (lb : LoadBalancer) (o : ForwardOutcome)
    (probe : String → Option Nat) :
    (lb.serveHTTP o).1.TotalRequests = lb.TotalRequests + 1 ∧
      lb.TotalRequests < (lb.serveHTTP o).1.TotalRequests ∧
      (lb.serveHTTP o).2.2.count Ev.incRequests = 1 ∧
      (healthCheckCycle probe lb).TotalRequests = lb.TotalRequests := by
  have h1 : (lb.serveHTTP o).1.TotalRequests = lb.TotalRequests + 1 ∧
      (lb.serveHTTP o).2.2.count Ev.incRequests = 1 := by
    cases hsel : ({ lb with TotalRequests := lb.TotalRequests + 1 } : LoadBalancer).selectServer with
    | none => simp [LoadBalancer.serveHTTP, hsel]
    | some ks =>
      obtain ⟨k, s⟩ := ks
      simp [LoadBalancer.serveHTTP, hsel, List.count_cons]
  exact ⟨h1.1, by rw [h1.1]; omega, h1.2, rfl⟩

/-- C10.  On an empty registry, `selectServer` is total and returns none;
the handler then answers service-unavailable while still incrementing the
total-request counter; and the empty configuration is accepted at startup
rather than rejected. -/
theorem empty_registry_behavior (a b : Int) (o : ForwardOutcome)
    (parseURL : String → Option String) :
    (LoadBalancer.mk [] a b).selectServer = none ∧
      (LoadBalancer.mk [] a b).serveHTTP o =
        (LoadBalancer.mk [] a (b + 1), Response.serviceUnavailable, [Ev.incRequests]) ∧
      runMain (some (some (Json.obj [("Servers", Json.arr [])]))) parseURL = some zeroLB :=
  ⟨rfl, rfl, rfl⟩

/-! ### Claim theorems: the health monitor -/

/-- C5.  After a health probe, the entry's flag is true iff the probe call
completed (no transport error or 5-second timeout) and reported the success
status 200 — the exact check of main.go:97 — and false in every other case
(error, timeout, non-200 status). -/
theorem healthCheck_healthy_iff (s : Server) (result : Option Nat) :
    ((healthCheckServer s result).Status = true ↔ result = some 200) ∧
      ((healthCheckServer s result).Status = false ↔ result ≠ some 200) := by
  cases result with
  | none => simp [healthCheckServer, probeStatus]
  | some code =>
    simp [healthCheckServer, probeStatus, Nat.beq_eq_true_eq]

/-! ### Claim theorems: startup and configuration -/

/-- C6 counterexample: the empty backend list is not rejected — `main`
parses `{"Servers": []}` without error and proceeds to serve, so
construction does not fail fatally on an empty list. -/
theorem startup_accepts_empty_list :
    runMain (some (some (Json.obj [("Servers", Json.arr [])]))) noParse = some zeroLB ∧
      runMain (some (some (Json.obj [("Servers", Json.arr [])]))) noParse ≠ none := by
  exact ⟨rfl, by decide⟩

/-- C6 amended: startup fails (the process does not begin serving) exactly
when the configuration file cannot be read or its JSON fails to decode; no
validation is applied beyond decoding — an empty backend list is accepted,
any capacity value (zero or negative included) is accepted, and an
unparseable address is accepted because the `url.Parse` error is discarded
(shown here for an arbitrary `parseURL`, including one failing on `u`). -/
theorem startup_fails_only_on_read_or_decode (file : Option (Option Json))
    (parseURL : String → Option String) (m : Int) (u : String) :
    (runMain file parseURL = none ↔
        file = none ∨ file = some none ∨
          ∃ doc e, file = some (some doc) ∧ LoadBalancer.decode doc = Except.error e) ∧
      runMain (some (some (Json.obj [("Servers", Json.arr
          [Json.obj [("MaximumActiveConnections", Json.num m), ("URL", Json.str u)]])])))
          parseURL =
        some (LoadBalancer.mk [Server.mk 0 m 0 false u (parseURL u)] 0 0) := by
  constructor
  · cases file with
    | none => simp [runMain]
    | some inner =>
      cases inner with
      | none => simp [runMain]
      | some doc =>
        simp only [runMain]
        cases hd : LoadBalancer.decode doc with
        | error e =>
          constructor
          · intro _
            exact Or.inr (Or.inr ⟨doc, e, rfl, hd⟩)
          · intro _
            rfl
        | ok lb =>
          constructor
          · intro h'
            cases h'
          · rintro (h' | h' | ⟨doc', e, hdoc, hdec⟩)
            · cases h'
            · cases h'
            · have hdd : doc' = doc := (Option.some_inj.mp (Option.some_inj.mp hdoc)).symm
              rw [hdd, hd] at hdec
              simp at hdec
  · rfl

/-- C7 (code defect relative to the documented configuration): the README's
`servers.json` declares `"Status": true` for each entry, but `encoding/json`
cannot unmarshal a JSON boolean into the `atomic.Bool` field, so `main`
aborts with an unmarshal error instead of constructing a registry whose
flags carry the declared booleans — the declared initial status can never
take effect. -/
theorem statusField_aborts_startup :
    Server.decode (Json.obj [("Id", Json.num 1), ("MaximumActiveConnections", Json.num 5),
        ("Status", Json.bool true), ("URL", Json.str "http://localhost:9001")]) =
      Except.error
        "json: cannot unmarshal bool into Go struct field Server.Status of type atomic.Bool" ∧
      runMain (some (some readmeServersJson)) noParse = none :=
  ⟨rfl, by decide⟩
